/-
A verification development for the derek-core kernel (RISC-V Sv39, RV64).

Shallow embedding of the memory subsystem (page-table entries, the Sv39
walk, virtual areas and address-space verification), the frame allocator,
the generic resource table, the identifier allocator used for PIDs, and
the process manager, translated from the Rust sources under
src/kernel/src.  Machine integers (usize) are modelled as Nat; bitwise
operations are either kept literally (Nat.land, Nat.lor, shifts) or
transcribed to the equivalent division/modulus arithmetic, in which case
the original expression is quoted in the doc comment.
-/
import Mathlib

deriving instance DecidableEq for Except

namespace Derek

/-- The modulus of a 64-bit machine word (`usize` on RV64). -/
def USIZE : Nat := 2 ^ 64

/-- Source `PAGE_ORDER` from mm/layout.rs. -/
def PAGE_ORDER : Nat := 12

/-- Source `PAGE_SIZE` from mm/layout.rs. -/
def PAGE_SIZE : Nat := 4096

/-- Source `MAX_VA = 1 << (9 + 9 + 9 + 12 - 1)` from mm/layout.rs. -/
def MAX_VA : Nat := 2 ^ 38

/-- Source `TRAMPOLINE_BASE_VA = MAX_VA - PAGE_SIZE` from mm/layout.rs. -/
def TRAMPOLINE_BASE_VA : Nat := MAX_VA - PAGE_SIZE

/-- Source `TRAPFRAME_BASE_USER_VA = TRAMPOLINE_BASE_VA - 2 * PAGE_SIZE` from mm/layout.rs. -/
def TRAPFRAME_BASE_USER_VA : Nat := TRAMPOLINE_BASE_VA - 2 * PAGE_SIZE

/-- Source `TEXT_BASE_USER_VA = 0x1_0000` from mm/layout.rs. -/
def TEXT_BASE_USER_VA : Nat := 0x10000

/-- Source `PTE2PA(pte) = (pte >> 10) << 12` from mm/arithmetics.rs. -/
def PTE2PA (pte : Nat) : Nat := (pte >>> 10) <<< 12

/-- Source `PA2PPN(pa) = (pa >> 12) << 10` from mm/arithmetics.rs. -/
def PA2PPN (pa : Nat) : Nat := (pa >>> 12) <<< 10

/-- Source `ALIGN_DOWN(val, order) = val & !((1 << order) - 1)` from mm/arithmetics.rs:
clearing the low `order` bits of a machine word is division followed by
multiplication by `2 ^ order` on Nat. -/
def ALIGN_DOWN (val order : Nat) : Nat := val / 2 ^ order * 2 ^ order

/-- Source `ALIGN_UP(val, order) = (val + ((1 << order) - 1)) & !((1 << order) - 1)`
from mm/arithmetics.rs. -/
def ALIGN_UP (val order : Nat) : Nat := ALIGN_DOWN (val + (2 ^ order - 1)) order

/-- Source `PG_ROUND_DOWN` from mm/arithmetics.rs. -/
def PG_ROUND_DOWN (val : Nat) : Nat := ALIGN_DOWN val PAGE_ORDER

/-- Source `PG_ROUND_UP` from mm/arithmetics.rs. -/
def PG_ROUND_UP (val : Nat) : Nat := ALIGN_UP val PAGE_ORDER

/-- Source `VirtAddr::pte_index(level)` from mm/memory.rs:
`vpn = va / PAGE_SIZE` (page-aligned base divided by the page size), then
`(vpn >> (level * 9)) & ((1 << 9) - 1)`; the final mask is `% 512`. -/
def pte_index (va level : Nat) : Nat := (va / PAGE_SIZE) >>> (level * 9) % 512

/-- Source `VirtAddr::offset()` from mm/memory.rs.  The source computes
`va & VA_OFFSET_WIDTH` where `VA_OFFSET_WIDTH = 12`, i.e. it masks the
address with the *width constant* 12 rather than with `(1 << 12) - 1`. -/
def va_offset (va : Nat) : Nat := Nat.land va 12

/-- Source `PhysAddr::with_offset(offset)` from mm/memory.rs:
`(self.0 & !offset_mask) | (offset & offset_mask)` with
`offset_mask = (1 << 12) - 1`; the two fields are disjoint, so the `or`
is a sum of the cleared address and the masked offset. -/
def with_offset (pa off : Nat) : Nat := pa / PAGE_SIZE * PAGE_SIZE + off % PAGE_SIZE

/-- Bits shifted into disjoint positions add up: the `or` of `a <<< k` with a
`k`-bit value is their sum.  Used to decompose `PageTableEntry` fields. -/
theorem two_pow_mul_add_eq_lor (a b k : Nat) (h : b < 2 ^ k) :
    2 ^ k * a + b = (a <<< k) ||| b := by
  apply Nat.eq_of_testBit_eq
  intro i
  rw [Nat.testBit_lor, Nat.testBit_shiftLeft]
  rcases Nat.lt_or_ge i k with hik | hik
  · have hd : (decide (k ≤ i)) = false := decide_eq_false (Nat.not_le_of_lt hik)
    simp only [ge_iff_le, hd, Bool.false_and, Bool.false_or]
    have h2 : (2 ^ k * a + b) / 2 ^ i % 2 = b / 2 ^ i % 2 := by
      have e0 : i + (k - i) = k := by omega
      have e1 : 2 ^ i * (2 ^ (k - i) * a) = 2 ^ k * a := by
        rw [← Nat.mul_assoc, ← Nat.pow_add, e0]
      rw [← e1, Nat.mul_add_div (Nat.two_pow_pos i)]
      have e2 : 2 ^ (k - i) = 2 * 2 ^ (k - i - 1) := by
        have h5 : k - i - 1 + 1 = k - i := by omega
        conv_lhs => rw [← h5]
        rw [pow_succ, Nat.mul_comm]
      rw [e2]
      have e3 : 2 * 2 ^ (k - i - 1) * a + b / 2 ^ i
          = b / 2 ^ i + 2 * (2 ^ (k - i - 1) * a) := by ring
      rw [e3, Nat.add_mul_mod_self_left]
    rw [Nat.testBit_to_div_mod, Nat.testBit_to_div_mod, h2]
  · have hb' : b < 2 ^ i := Nat.lt_of_lt_of_le h (Nat.pow_le_pow_right (by omega) hik)
    have hd : (decide (k ≤ i)) = true := decide_eq_true hik
    simp only [ge_iff_le, hd, Bool.true_and, Nat.testBit_lt_two_pow hb', Bool.or_false]
    have h2 : (2 ^ k * a + b) / 2 ^ i = a / 2 ^ (i - k) := by
      have e0 : k + (i - k) = i := by omega
      have e4 : 2 ^ k * 2 ^ (i - k) = 2 ^ i := by rw [← Nat.pow_add, e0]
      rw [← e4, ← Nat.div_div_eq_div_mul,
        Nat.mul_add_div (Nat.two_pow_pos k), Nat.div_eq_of_lt h, Nat.add_zero]
    rw [Nat.testBit_to_div_mod, Nat.testBit_to_div_mod, h2]

-- ---------------------------------------------------------------------------
-- PageTableEntry (mm/page_table.rs)
-- ---------------------------------------------------------------------------

/-- Source `PageTableEntry` from mm/page_table.rs: a 64-bit bitfield. -/
structure PageTableEntry where
  bits : Nat
deriving DecidableEq

namespace PageTableEntry

/-- Source `PageTableEntry::new(pa, flags)`, via `make_entry`:
`frame.number << 10 | flags.bits()` where `frame.number = pa / PAGE_SIZE`
(the `From<PhysAddr> for Frame` conversion rounds down to the page base). -/
def new (pa flags : Nat) : PageTableEntry :=
  ⟨(pa / PAGE_SIZE) <<< 10 ||| flags⟩

/-- Source `PageTableEntry::empty()`. -/
def empty : PageTableEntry := ⟨0⟩

/-- Source `PageTableEntry::flags()`: `flags_raw = bits & ((1 << 10) - 1)`, then
`PTEFlags::from_bits(flags_raw).unwrap()`.  `PTEFlags` defines only bits
0..8 (`VALID` .. `COW`), so `from_bits` returns `None` — and the `unwrap`
panics — exactly when bit 9 of the entry is set, i.e. when the low ten
bits are not below 512. -/
def flags (p : PageTableEntry) : Option Nat :=
  if p.bits % 1024 < 512 then some (p.bits % 1024) else none

/-- Source `PageTableEntry::referencing_address()`: `PTE2PA(bits)`. -/
def referencing_address (p : PageTableEntry) : Nat := PTE2PA p.bits

/-- Source `PageTableEntry::referencing_frame().number`: the referenced physical
page number, `referencing_address / PAGE_SIZE`.  (The source asserts the
address is page-aligned, which `(bits >> 10) << 12` always is.) -/
def referencing_ppn (p : PageTableEntry) : Nat := p.referencing_address / PAGE_SIZE

/-- Source `PageTableEntry::is_valid()`: `flags().contains(VALID)`.  Inherits the
panic of `flags()` on entries with bit 9 set, hence an `Option`. -/
def is_valid (p : PageTableEntry) : Option Bool :=
  (p.flags).map (fun f => f % 2 == 1)

theorem referencing_ppn_eq (b : Nat) :
    (PageTableEntry.mk b).referencing_ppn = b / 2 ^ 10 := by
  show PTE2PA b / PAGE_SIZE = b / 2 ^ 10
  rw [PTE2PA, Nat.shiftLeft_eq, Nat.shiftRight_eq_div_pow]
  show b / 2 ^ 10 * 2 ^ 12 / 4096 = b / 2 ^ 10
  omega

/-- The bits of a freshly constructed entry whose flag argument fits in the
low ten bits: the `or` of the disjoint fields is their sum. -/
theorem new_bits (pa f : Nat) (hf : f < 1024) :
    (new pa f).bits = pa / PAGE_SIZE * 1024 + f := by
  show (pa / PAGE_SIZE) <<< 10 ||| f = pa / PAGE_SIZE * 1024 + f
  rw [← two_pow_mul_add_eq_lor _ _ 10 hf]
  ring_nf

theorem new_referencing_ppn (pa f : Nat) (hf : f < 1024) :
    (new pa f).referencing_ppn = pa / PAGE_SIZE := by
  have h1 : (new pa f).bits = pa / PAGE_SIZE * 1024 + f := new_bits pa f hf
  show PTE2PA (new pa f).bits / PAGE_SIZE = pa / PAGE_SIZE
  rw [h1, PTE2PA, Nat.shiftLeft_eq, Nat.shiftRight_eq_div_pow]
  show (pa / PAGE_SIZE * 1024 + f) / 2 ^ 10 * 2 ^ 12 / 4096 = pa / PAGE_SIZE
  omega

theorem new_flags (pa f : Nat) (hf : f < 512) :
    (new pa f).flags = some f := by
  have h1 : (new pa f).bits = pa / PAGE_SIZE * 1024 + f := new_bits pa f (by omega)
  show (if (new pa f).bits % 1024 < 512 then some ((new pa f).bits % 1024) else none) = some f
  rw [h1]
  have h2 : (pa / PAGE_SIZE * 1024 + f) % 1024 = f := by omega
  rw [h2]
  simp [hf]

theorem new_is_valid (pa f : Nat) (hf : f < 512) :
    (new pa f).is_valid = some (f % 2 == 1) := by
  rw [is_valid, new_flags pa f hf, Option.map_some']

/-- Source `is_valid = some true` forces the valid bit (bit 0) of the raw entry. -/
theorem is_valid_true_mod_two {p : PageTableEntry} (h : p.is_valid = some true) :
    p.bits % 2 = 1 := by
  rw [is_valid, flags] at h
  by_cases hr : p.bits % 1024 < 512
  · simp only [hr, if_true, Option.map_some', Option.some.injEq, beq_iff_eq] at h
    omega
  · simp [hr] at h

end PageTableEntry

-- ---------------------------------------------------------------------------
-- The Sv39 walk (mm/page_table.rs: PageTableGuard::find / translate)
-- ---------------------------------------------------------------------------

/-- Physical memory, viewed as page tables: page number → entry index →
raw PTE bits.  A `PageTableNode` in the source is exactly a physical frame
reinterpreted as 512 entries, read through the kernel identity mapping. -/
abbrev Mem := Nat → Nat → Nat

/-- Source `PageTableGuard::find(va)`: walk levels 2, 1, 0 from the root node.
At level 0 the entry is returned *without* a validity check; at levels
2 and 1 an invalid entry aborts the walk with `None`.  Panics (modelled
by `Except.error`) surface from `is_valid` on entries with bit 9 set. -/
def find (mem : Mem) (root va : Nat) : Except String (Option PageTableEntry) :=
  let p2 : PageTableEntry := ⟨mem root (pte_index va 2)⟩
  match p2.is_valid with
  | none => .error "PTEFlags::from_bits: unknown bit set"
  | some v2 =>
    if v2 then
      let p1 : PageTableEntry := ⟨mem p2.referencing_ppn (pte_index va 1)⟩
      match p1.is_valid with
      | none => .error "PTEFlags::from_bits: unknown bit set"
      | some v1 =>
        if v1 then
          .ok (some ⟨mem p1.referencing_ppn (pte_index va 0)⟩)
        else
          .ok none
    else
      .ok none

/-- Source `PageTableGuard::translate(va)`:
`find(va)` then `(pte.referencing_address().with_offset(va.offset()), pte.flags())`. -/
def translate (mem : Mem) (root va : Nat) : Except String (Option (Nat × Nat)) :=
  match find mem root va with
  | .error e => .error e
  | .ok none => .ok none
  | .ok (some pte) =>
    match pte.flags with
    | none => .error "PTEFlags::from_bits: unknown bit set"
    | some f => .ok (some (with_offset pte.referencing_address (va_offset va), f))

-- ---------------------------------------------------------------------------
-- Concrete page tables used to exercise the walk
-- ---------------------------------------------------------------------------

/-- A concrete three-level table: root is page 0; for walk index 0 at every
level, page 0 points to page 1, page 1 points to page 2, and the leaf entry
in page 2 is zero (invalid).  All other entries are zero. -/
def chain_mem : Mem := fun p i =>
  if p = 0 ∧ i = 0 then (1 <<< 10) ||| 1
  else if p = 1 ∧ i = 0 then (2 <<< 10) ||| 1
  else 0

/-- Like `chain_mem` but with a valid leaf mapping to physical page 5. -/
def chain_leaf_mem : Mem := fun p i =>
  if p = 0 ∧ i = 0 then (1 <<< 10) ||| 1
  else if p = 1 ∧ i = 0 then (2 <<< 10) ||| 1
  else if p = 2 ∧ i = 0 then (5 <<< 10) ||| 1
  else 0

-- ---------------------------------------------------------------------------
-- Claim C3
-- ---------------------------------------------------------------------------

/-- Claim C3, counterexample: the claim asserts `translate` returns `None`
whenever the walk meets an invalid PTE, *including* an invalid leaf.  In
`chain_leaf_mem` with the leaf zeroed (`chain_mem`), the leaf PTE of
`va = 0` is invalid, yet `translate` returns `Some (0, 0)` — `find` hands
the level-0 entry back without a validity check. -/
theorem c3_counterexample :
    (PageTableEntry.mk (chain_mem 2 0)).is_valid = some false ∧
    translate chain_mem 0 0 = .ok (some (0, 0)) ∧
    translate chain_mem 0 0 ≠ .ok none := by
  decide

/-- Claim C3 (amended): `translate(va)` returns `None` exactly when an
*intermediate* PTE (level 2 or level 1) of the walk is invalid; an invalid
leaf PTE instead yields `Some (pa, flags)` with the `VALID` bit clear in
`flags`. -/
theorem c3_translate_none_iff_intermediate_invalid (mem : Mem) (root va : Nat) :
    translate mem root va = .ok none ↔
      ((PageTableEntry.mk (mem root (pte_index va 2))).is_valid = some false ∨
       ((PageTableEntry.mk (mem root (pte_index va 2))).is_valid = some true ∧
        (PageTableEntry.mk
            (mem (PageTableEntry.mk (mem root (pte_index va 2))).referencing_ppn
              (pte_index va 1))).is_valid = some false)) := by
  simp only [translate, find]
  rcases h2 : (PageTableEntry.mk (mem root (pte_index va 2))).is_valid with _ | v2
  · simp [h2]
  · rcases v2 with _ | _
    · simp [h2]
    · rcases h1 : (PageTableEntry.mk
          (mem (PageTableEntry.mk (mem root (pte_index va 2))).referencing_ppn
            (pte_index va 1))).is_valid with _ | v1
      · simp [h2, h1]
      · rcases v1 with _ | _
        · simp [h2, h1]
        · rcases hf : (PageTableEntry.mk
              (mem (PageTableEntry.mk
                  (mem (PageTableEntry.mk (mem root (pte_index va 2))).referencing_ppn
                    (pte_index va 1))).referencing_ppn (pte_index va 0))).flags with _ | f
          · simp [h2, h1, hf]
          · simp [h2, h1, hf]

-- ---------------------------------------------------------------------------
-- Claim C4
-- ---------------------------------------------------------------------------

/-- Claim C4 (code bug): for `va = 1` the walk in `chain_leaf_mem` succeeds
with leaf PPN 5, so the claim demands `pa = 5 * 4096 + 1` (PPN shifted,
combined with the low 12 bits of `va`).  The code instead computes the
offset as `va & VA_OFFSET_WIDTH = va & 12`, so the offset of `va = 1` is
`0` and `translate` returns `5 * 4096`.  The mask error is also visible
directly: the "12-bit offset" of `0xfff` comes out as `12`. -/
theorem c4_translate_uses_wrong_offset_mask :
    translate chain_leaf_mem 0 1 = .ok (some (5 * 4096, 1)) ∧
    5 * 4096 ≠ 5 * 4096 + 1 % 4096 ∧
    va_offset 1 = 0 ∧
    va_offset 4095 = 12 := by
  decide

-- ---------------------------------------------------------------------------
-- Claim C9
-- ---------------------------------------------------------------------------

/-- Claim C9, counterexample: the claim asserts `flags()` succeeds for any
combination of the low 10 bits.  For an entry whose bit 9 is set (raw
value 512, inside the low ten bits), `PTEFlags::from_bits` finds an
undefined bit and the `unwrap` panics: `flags` is `none`. -/
theorem c9_counterexample :
    (PageTableEntry.mk 512).flags = none ∧ (512 : Nat) < 1024 := by
  decide

/-- Claim C9 (amended): `flags()` is total exactly on entries whose low ten
bits stay below 512 (any combination of the nine defined flag bits
`VALID..COW`), returning those bits; `referencing_address()` is total and
returns `PPN << 12` where `PPN = bits >> 10`; and for every page-aligned
physical address and defined flag combination, construction followed by
decomposition returns the original pair. -/
theorem c9_entry_decomposition (b pa f : Nat) (hpa : pa % PAGE_SIZE = 0) (hf : f < 512) :
    (PageTableEntry.mk b).flags
        = (if b % 1024 < 512 then some (b % 1024) else none) ∧
    (PageTableEntry.mk b).referencing_address = b / 1024 * 4096 ∧
    (PageTableEntry.new pa f).referencing_address = pa ∧
    (PageTableEntry.new pa f).flags = some f := by
  refine ⟨rfl, ?_, ?_, PageTableEntry.new_flags pa f hf⟩
  · show PTE2PA b = b / 1024 * 4096
    rw [PTE2PA, Nat.shiftLeft_eq, Nat.shiftRight_eq_div_pow]
  · have h1 : (PageTableEntry.new pa f).bits = pa / 4096 * 1024 + f := by
      simpa [PAGE_SIZE] using PageTableEntry.new_bits pa f (by omega)
    have hpa' : pa % 4096 = 0 := by simpa [PAGE_SIZE] using hpa
    show PTE2PA (PageTableEntry.new pa f).bits = pa
    rw [h1, PTE2PA, Nat.shiftLeft_eq, Nat.shiftRight_eq_div_pow]
    omega

/-- Claim C9, witness: the amended decomposition at a concrete entry and a
concrete page-aligned construction. -/
theorem c9_witness :
    (PageTableEntry.mk 1025).flags = some 1 ∧
    (PageTableEntry.mk 1025).referencing_address = 4096 ∧
    (PageTableEntry.new 8192 7).referencing_address = 8192 ∧
    (PageTableEntry.new 8192 7).flags = some 7 := by
  have h := c9_entry_decomposition 1025 8192 7 (by decide) (by decide)
  exact ⟨by simpa using h.1, by simpa using h.2.1, h.2.2.1, h.2.2.2⟩

-- ---------------------------------------------------------------------------
-- VirtArea and address-space verification (mm/address_space.rs, mm/page_table.rs)
-- ---------------------------------------------------------------------------

/-- Source `VirtFrameGuard` from mm/memory.rs, each variant recorded by the physical
page number of its backing frame. -/
inductive VirtFrameGuard where
  | exclusivelyAllocated (ppn : Nat)
  | cowShared (ppn : Nat)
  | physBorrowed (ppn : Nat)
deriving DecidableEq

/-- The physical page base each guard variant hands to map/verify
(`get_base_phys_addr`). -/
def VirtFrameGuard.backing_pa : VirtFrameGuard → Nat
  | .exclusivelyAllocated ppn => ppn * PAGE_SIZE
  | .cowShared ppn => ppn * PAGE_SIZE
  | .physBorrowed ppn => ppn * PAGE_SIZE

def VirtFrameGuard.is_cow : VirtFrameGuard → Bool
  | .cowShared _ => true
  | _ => false

/-- Source `VirtArea` from mm/address_space.rs.  `virt_frame_range` is kept as the
pair of its begin/end virtual page numbers; `virt_frames` is the ordered
`BTreeMap` of tracked backings. -/
structure VirtArea where
  range_begin : Nat
  range_end : Nat
  virt_frames : List (Nat × VirtFrameGuard)
  permissions : Nat
  is_identically_mapped : Bool
deriving DecidableEq

/-- The virtual page numbers iterated by the identity branch of map/verify
(`virt_area.virt_frame_range.into_iter()`). -/
def VirtArea.identity_vfns (a : VirtArea) : List Nat :=
  List.range' a.range_begin (a.range_end - a.range_begin)

/-- One intended mapping inside `verify_virt_area_mapping`:
`if let Some(pte) = self.find(va)` — a missing walk silently passes —
then `assert_eq!(pte.referencing_address(), pa)` and
`assert_eq!(pte.flags(), flags | VALID)`. -/
def verify_one (mem : Mem) (root flags va pa : Nat) : Except String Unit :=
  match find mem root va with
  | .error e => .error e
  | .ok none => .ok ()
  | .ok (some pte) =>
    if pte.referencing_address = pa then
      match pte.flags with
      | none => .error "PTEFlags::from_bits: unknown bit set"
      | some f => if f = flags ||| 1 then .ok () else .error "flag mismatch"
    else .error "address mismatch"

/-- The identity branch of `verify_virt_area_mapping`: each virtual frame in
the range is checked against the equal physical address. -/
def verify_ident_loop (mem : Mem) (root flags : Nat) : List Nat → Except String Unit
  | [] => .ok ()
  | vfn :: rest =>
    match verify_one mem root flags (vfn * PAGE_SIZE) (vfn * PAGE_SIZE) with
    | .error e => .error e
    | .ok () => verify_ident_loop mem root flags rest

/-- The backing branch of `verify_virt_area_mapping`: each tracked frame is
checked, `CowShared` panics. -/
def verify_frames_loop (mem : Mem) (root flags : Nat) :
    List (Nat × VirtFrameGuard) → Except String Unit
  | [] => .ok ()
  | (va, g) :: rest =>
    match g with
    | .cowShared _ => .error "kernel does not support copy-on-write at the moment..."
    | .exclusivelyAllocated ppn =>
      match verify_one mem root flags va (ppn * PAGE_SIZE) with
      | .error e => .error e
      | .ok () => verify_frames_loop mem root flags rest
    | .physBorrowed ppn =>
      match verify_one mem root flags va (ppn * PAGE_SIZE) with
      | .error e => .error e
      | .ok () => verify_frames_loop mem root flags rest

/-- Source `PageTableGuard::verify_virt_area_mapping` from mm/page_table.rs. -/
def verify_virt_area_mapping (mem : Mem) (root : Nat) (a : VirtArea) : Except String Unit :=
  if a.is_identically_mapped then
    verify_ident_loop mem root a.permissions a.identity_vfns
  else
    verify_frames_loop mem root a.permissions a.virt_frames

/-- Source `PageTableGuard` from mm/page_table.rs: the root node's page number plus
the page numbers of the node frames it owns. -/
structure PageTableGuard where
  root : Nat
  node_frames : List Nat
deriving DecidableEq

/-- Source `AddrSpace` from mm/address_space.rs. -/
structure AddrSpace where
  page_table : PageTableGuard
  virt_areas : List VirtArea
deriving DecidableEq

def verify_areas (mem : Mem) (root : Nat) : List VirtArea → Except String Unit
  | [] => .ok ()
  | a :: rest =>
    match verify_virt_area_mapping mem root a with
    | .error e => .error e
    | .ok () => verify_areas mem root rest

/-- Source `AddrSpace::verify`: checks every area (iterated in reverse). -/
def AddrSpace.verify (mem : Mem) (s : AddrSpace) : Except String Unit :=
  verify_areas mem s.page_table.root s.virt_areas.reverse

/-- What one intended mapping must satisfy for `verify` to pass through it:
the walk must not panic, and *if* the walk reaches a level-0 entry, that
entry must decompose to the intended physical address with flags exactly
`perms | VALID`.  A walk that dies at an intermediate level imposes nothing. -/
def mapping_ok (mem : Mem) (root flags va pa : Nat) : Prop :=
  (∀ e, find mem root va ≠ .error e) ∧
  ∀ pte, find mem root va = .ok (some pte) →
    pte.referencing_address = pa ∧ pte.flags = some (flags ||| 1)

theorem verify_one_ok_iff (mem : Mem) (root flags va pa : Nat) :
    verify_one mem root flags va pa = .ok () ↔ mapping_ok mem root flags va pa := by
  rw [verify_one, mapping_ok]
  rcases hf : find mem root va with e | o
  · simp [hf]
  · rcases o with _ | pte
    · simp [hf]
    · by_cases ha : pte.referencing_address = pa
      · simp only [ha, if_true]
        rcases hfl : pte.flags with _ | f
        · simp [hf, hfl]
        · by_cases hq : f = flags ||| 1
          · subst hq
            simp [hf, hfl, ha]
          · simp only [if_neg hq]
            constructor
            · intro h
              exact absurd h (by simp)
            · rintro ⟨-, h2⟩
              have := (h2 pte rfl).2
              rw [hfl] at this
              exact absurd (Option.some.injEq .. ▸ this) hq
      · simp only [if_neg ha]
        constructor
        · intro h
          exact absurd h (by simp)
        · rintro ⟨-, h2⟩
          exact absurd (h2 pte rfl).1 ha

theorem verify_ident_loop_ok_iff (mem : Mem) (root flags : Nat) (l : List Nat) :
    verify_ident_loop mem root flags l = .ok () ↔
      ∀ vfn ∈ l, mapping_ok mem root flags (vfn * PAGE_SIZE) (vfn * PAGE_SIZE) := by
  induction l with
  | nil => simp [verify_ident_loop]
  | cons vfn rest ih =>
    rw [verify_ident_loop]
    rcases h1 : verify_one mem root flags (vfn * PAGE_SIZE) (vfn * PAGE_SIZE) with e | u
    · have hno : ¬ mapping_ok mem root flags (vfn * PAGE_SIZE) (vfn * PAGE_SIZE) := by
        rw [← verify_one_ok_iff, h1]
        simp
      simp [hno]
    · cases u
      have hyes : mapping_ok mem root flags (vfn * PAGE_SIZE) (vfn * PAGE_SIZE) := by
        rw [← verify_one_ok_iff, h1]
      simp [ih, hyes]

theorem verify_frames_loop_ok_iff (mem : Mem) (root flags : Nat)
    (l : List (Nat × VirtFrameGuard)) :
    verify_frames_loop mem root flags l = .ok () ↔
      ∀ p ∈ l, p.2.is_cow = false ∧ mapping_ok mem root flags p.1 p.2.backing_pa := by
  induction l with
  | nil => simp [verify_frames_loop]
  | cons hd rest ih =>
    rcases hd with ⟨va, g⟩
    rcases g with ppn | ppn | ppn
    · rw [verify_frames_loop]
      rcases h1 : verify_one mem root flags va (ppn * PAGE_SIZE) with e | u
      · have hno : ¬ mapping_ok mem root flags va (ppn * PAGE_SIZE) := by
          rw [← verify_one_ok_iff, h1]
          simp
        simp [VirtFrameGuard.backing_pa, hno]
      · cases u
        have hyes : mapping_ok mem root flags va (ppn * PAGE_SIZE) := by
          rw [← verify_one_ok_iff, h1]
        simp [ih, VirtFrameGuard.is_cow, VirtFrameGuard.backing_pa, hyes]
    · simp [verify_frames_loop, VirtFrameGuard.is_cow]
    · rw [verify_frames_loop]
      rcases h1 : verify_one mem root flags va (ppn * PAGE_SIZE) with e | u
      · have hno : ¬ mapping_ok mem root flags va (ppn * PAGE_SIZE) := by
          rw [← verify_one_ok_iff, h1]
          simp
        simp [VirtFrameGuard.backing_pa, hno]
      · cases u
        have hyes : mapping_ok mem root flags va (ppn * PAGE_SIZE) := by
          rw [← verify_one_ok_iff, h1]
        simp [ih, VirtFrameGuard.is_cow, VirtFrameGuard.backing_pa, hyes]

-- ---------------------------------------------------------------------------
-- Claim C1
-- ---------------------------------------------------------------------------

/-- The all-zero physical memory: an empty page table at every root. -/
def zero_mem : Mem := fun _ _ => 0

/-- A virtual area with a single borrowed backing frame, as the trampoline
area is built. -/
def c1_area : VirtArea :=
  { range_begin := 1
    range_end := 2
    virt_frames := [(4096, .physBorrowed 5)]
    permissions := 6
    is_identically_mapped := false }

/-- Claim C1, counterexample: the claim asserts verification is fatal when
some intended virtual address has no present entry in the page table.  In
an empty table, `find(0x1000)` returns `None` for the single intended
mapping `0x1000 ↦ 0x5000` of `c1_area`, yet both
`verify_virt_area_mapping` and `AddrSpace::verify` succeed: the
`if let Some(pte)` silently skips missing walks. -/
theorem c1_counterexample :
    verify_virt_area_mapping zero_mem 0 c1_area = .ok () ∧
    AddrSpace.verify zero_mem ⟨⟨0, [0]⟩, [c1_area]⟩ = .ok () ∧
    find zero_mem 0 4096 = .ok none := by
  decide

/-- Claim C1 (amended): for every `VirtArea`, `verify_virt_area_mapping`
succeeds iff for each mapping the area intends (the identity range, or the
tracked non-`CowShared` backings), *whenever* `find(va)` reaches a
level-0 entry, that entry's referencing physical address equals the
intended physical address and its flags equal `perms | VALID` (and the
walk never panics).  An intended virtual address whose walk dies at an
intermediate level is silently skipped, not fatal. -/
theorem c1_verify_iff (mem : Mem) (root : Nat) (a : VirtArea) :
    verify_virt_area_mapping mem root a = .ok () ↔
      (if a.is_identically_mapped then
        ∀ vfn ∈ a.identity_vfns,
          mapping_ok mem root a.permissions (vfn * PAGE_SIZE) (vfn * PAGE_SIZE)
      else
        ∀ p ∈ a.virt_frames,
          p.2.is_cow = false ∧ mapping_ok mem root a.permissions p.1 p.2.backing_pa) := by
  rw [verify_virt_area_mapping]
  by_cases hid : a.is_identically_mapped
  · simp only [hid, if_true]
    exact verify_ident_loop_ok_iff mem root a.permissions a.identity_vfns
  · simp only [hid, if_false, Bool.false_eq_true]
    exact verify_frames_loop_ok_iff mem root a.permissions a.virt_frames

-- ---------------------------------------------------------------------------
-- ResourceTable (common/resource_table.rs)
-- ---------------------------------------------------------------------------

/-- Source `FreeSlotsInner` from common/resource_table.rs: the `BTreeSet` of free
ids plus the current capacity. -/
structure FreeSlotsInner where
  free_ids : Finset Nat
  capacity : Nat
deriving DecidableEq

namespace FreeSlotsInner

/-- Source `FreeSlotsInner::new(capacity)`: `free_ids = (0..capacity).collect()`. -/
def new (capacity : Nat) : FreeSlotsInner := ⟨Finset.range capacity, capacity⟩

/-- Source `FreeSlotsInner::allocate_one`: when the set is empty, insert
`capacity..capacity*2` and double the capacity; then
`assert!(!free_ids.is_empty())` and `pop_first()` (the smallest id). -/
def allocate_one (f : FreeSlotsInner) : Except String (Nat × FreeSlotsInner) :=
  let f1 : FreeSlotsInner :=
    if f.free_ids = ∅ then
      ⟨f.free_ids ∪ Finset.Ico f.capacity (f.capacity * 2), f.capacity * 2⟩
    else f
  if h : f1.free_ids.Nonempty then
    .ok (f1.free_ids.min' h, ⟨f1.free_ids.erase (f1.free_ids.min' h), f1.capacity⟩)
  else
    .error "assertion failed: !self.free_ids.is_empty()"

/-- Source `FreeSlotsInner::return_one(id)`: the source executes
`assert!(self.free_ids.remove(&id))` — `BTreeSet::remove` deletes `id` and
returns whether it was present, so the assert panics unless `id` was
already free, and a present `id` is *removed* rather than returned. -/
def return_one (f : FreeSlotsInner) (id : Nat) : Except String FreeSlotsInner :=
  if id ∈ f.free_ids then .ok ⟨f.free_ids.erase id, f.capacity⟩
  else .error "assertion failed: self.free_ids.remove(id)"

end FreeSlotsInner

/-- Source `ResourceTable<T>` from common/resource_table.rs.  The hash map
`active_slots : HashMap<usize, Option<Arc<T>>>` is modelled by its key set
together with the subset of keys whose slot holds `Some`; the stored
values are not inspected by any claim. -/
structure ResourceTable where
  slot_keys : Finset Nat
  slot_inited : Finset Nat
  free_slots : FreeSlotsInner
deriving DecidableEq

namespace ResourceTable

def new (capacity : Nat) : ResourceTable := ⟨∅, ∅, FreeSlotsInner.new capacity⟩

/-- Source `ResourceTable::reserve_entry`: allocate an id, then
`active_slots.insert(id, None)` must find no previous entry. -/
def reserve_entry (t : ResourceTable) : Except String (Nat × ResourceTable) :=
  match t.free_slots.allocate_one with
  | .error e => .error e
  | .ok (id, fs) =>
    if id ∈ t.slot_keys then .error "Table::reserve: id collision"
    else .ok (id, ⟨insert id t.slot_keys, t.slot_inited, fs⟩)

/-- Source `ResourceTable::initialise_entry(id, data)`: `get_mut(&id).unwrap()`,
then overwrite the slot with `Some(data)`. -/
def initialise_entry (t : ResourceTable) (id : Nat) : Except String ResourceTable :=
  if id ∈ t.slot_keys then .ok ⟨t.slot_keys, insert id t.slot_inited, t.free_slots⟩
  else .error "Option::unwrap on None"

/-- Source `ResourceTable::remove_entry(id)`: drop the slot, then `return_one(id)`. -/
def remove_entry (t : ResourceTable) (id : Nat) : Except String ResourceTable :=
  match t.free_slots.return_one id with
  | .error e => .error e
  | .ok fs => .ok ⟨t.slot_keys.erase id, t.slot_inited.erase id, fs⟩

end ResourceTable

-- ---------------------------------------------------------------------------
-- Claim C2
-- ---------------------------------------------------------------------------

/-- The `reserve → initialise → remove` round trip of (RT-2) on a fresh
two-slot table: the id that gets removed is the one reserve handed out. -/
def c2_round_trip : Except String ResourceTable :=
  match (ResourceTable.new 2).reserve_entry with
  | .error e => .error e
  | .ok (id, t1) =>
    match t1.initialise_entry id with
    | .error e => .error e
    | .ok t2 => t2.remove_entry id

/-- Claim C2 (code bug): `reserve` on a fresh `ResourceTable(2)` hands out
id 0 and removes it from `free`; `remove_entry(0)` then runs
`assert!(free_ids.remove(&0))`, which fails because 0 is *not* free, so
the round trip panics instead of returning the id to `free`.  The inner
`return_one` is an inverted operation: it removes a free id instead of
inserting the returned one. -/
theorem c2_remove_entry_panics :
    (FreeSlotsInner.new 2).allocate_one = .ok (0, ⟨{1}, 2⟩) ∧
    c2_round_trip = .error "assertion failed: self.free_ids.remove(id)" := by
  decide

-- ---------------------------------------------------------------------------
-- Claim C8
-- ---------------------------------------------------------------------------

/-- Iterated `reserve_entry`, returning the handed-out ids in order. -/
def reserve_iter (t : ResourceTable) : Nat → Except String (List Nat × ResourceTable)
  | 0 => .ok ([], t)
  | n + 1 =>
    match t.reserve_entry with
    | .error e => .error e
    | .ok (id, t1) =>
      match reserve_iter t1 n with
      | .error e => .error e
      | .ok (ids, t2) => .ok (id :: ids, t2)

theorem reserve_iter_add (t : ResourceTable) (a b : Nat) :
    reserve_iter t (a + b) =
      match reserve_iter t a with
      | .error e => .error e
      | .ok (ids, t1) =>
        match reserve_iter t1 b with
        | .error e => .error e
        | .ok (ids2, t2) => .ok (ids ++ ids2, t2) := by
  induction a generalizing t with
  | zero =>
    simp only [Nat.zero_add, reserve_iter]
    rcases reserve_iter t b with e | p
    · rfl
    · rfl
  | succ a ih =>
    have e1 : a + 1 + b = (a + b) + 1 := by omega
    rw [e1, reserve_iter, reserve_iter]
    rcases t.reserve_entry with e | ⟨id, t1⟩
    · rfl
    · dsimp only
      rw [ih t1]
      rcases reserve_iter t1 a with e | ⟨ids, t2⟩
      · rfl
      · dsimp only
        rcases reserve_iter t2 b with e | ⟨ids2, t3⟩
        · rfl
        · rfl

theorem Ico_erase_left_nat (a b : Nat) :
    (Finset.Ico a b).erase a = Finset.Ico (a + 1) b := by
  rw [← Nat.Ico_succ_left_eq_erase_Ico]

theorem Ico_min'_eq (a b : Nat) (h : (Finset.Ico a b).Nonempty) :
    (Finset.Ico a b).min' h = a := by
  have hab : a < b := Finset.nonempty_Ico.mp h
  apply le_antisymm
  · exact Finset.min'_le _ _ (Finset.mem_Ico.mpr ⟨le_refl a, hab⟩)
  · exact Finset.le_min' _ _ _ (fun y hy => (Finset.mem_Ico.mp hy).1)

/-- While free ids remain, each `reserve_entry` pops the least free id. -/
theorem reserve_iter_mid (cap k : Nat) (s : Finset Nat) :
    ∀ j, j + k ≤ cap →
      reserve_iter ⟨Finset.range j, s, ⟨Finset.Ico j cap, cap⟩⟩ k
        = .ok (List.range' j k,
            ⟨Finset.range (j + k), s, ⟨Finset.Ico (j + k) cap, cap⟩⟩) := by
  induction k with
  | zero =>
    intro j hj
    simp [reserve_iter]
  | succ k ih =>
    intro j hj
    have hjc : j < cap := by omega
    have hne : (Finset.Ico j cap).Nonempty := Finset.nonempty_Ico.mpr hjc
    have hstep : (⟨Finset.range j, s, ⟨Finset.Ico j cap, cap⟩⟩ : ResourceTable).reserve_entry
        = .ok (j, ⟨Finset.range (j + 1), s, ⟨Finset.Ico (j + 1) cap, cap⟩⟩) := by
      rw [ResourceTable.reserve_entry, FreeSlotsInner.allocate_one]
      have hemp : ¬ (Finset.Ico j cap = ∅) := by
        intro hc
        rw [hc] at hne
        exact Finset.not_nonempty_empty hne
      simp only [hemp, if_false, dif_pos hne, Ico_min'_eq j cap hne]
      have hmem : ¬ (j ∈ Finset.range j) := by simp
      simp only [hmem, if_false, Ico_erase_left_nat]
      rw [Finset.range_succ]
    rw [reserve_iter, hstep]
    dsimp only
    rw [ih (j + 1) (by omega)]
    have e1 : j + 1 + k = j + (k + 1) := by omega
    rw [e1, List.range'_succ]

/-- Claim C8, counterexample: the claim quantifies over every fresh
`ResourceTable(cap)` and promises the `(cap+1)`-th reserve returns `cap`.
For `cap = 0` the grow step inserts the empty range `0..0`, the free set
stays empty, and the `assert!(!free_ids.is_empty())` panics instead of
returning id 0. -/
theorem c8_counterexample :
    (ResourceTable.new 0).reserve_entry
      = .error "assertion failed: !self.free_ids.is_empty()" := by
  decide

/-- Claim C8 (amended): for every capacity `cap ≥ 1`, a fresh
`ResourceTable(cap)` hands out ids `0, 1, …, cap-1` in increasing order
over its first `cap` reserves; on the `(cap+1)`-th reserve the capacity
doubles to `2·cap`, the ids `[cap, 2·cap)` enter the free set, and the id
handed out is `cap` (leaving `[cap+1, 2·cap)` free). -/
theorem c8_fresh_table_ids (cap : Nat) (h : 0 < cap) :
    reserve_iter (ResourceTable.new cap) (cap + 1)
      = .ok (List.range (cap + 1),
          ⟨Finset.range (cap + 1), ∅,
            ⟨Finset.Ico (cap + 1) (cap * 2), cap * 2⟩⟩) := by
  rw [reserve_iter_add]
  have hnew : (ResourceTable.new cap)
      = ⟨Finset.range 0, ∅, ⟨Finset.Ico 0 cap, cap⟩⟩ := by
    rw [ResourceTable.new, FreeSlotsInner.new]
    rw [Finset.range_eq_Ico]
    rfl
  rw [hnew, reserve_iter_mid cap cap ∅ 0 (by omega)]
  have hmid : reserve_iter ⟨Finset.range (0 + cap), ∅, ⟨Finset.Ico (0 + cap) cap, cap⟩⟩ 1
      = .ok ([cap],
          ⟨Finset.range (cap + 1), ∅, ⟨Finset.Ico (cap + 1) (cap * 2), cap * 2⟩⟩) := by
    rw [reserve_iter, ResourceTable.reserve_entry, FreeSlotsInner.allocate_one]
    simp only [Nat.zero_add]
    have hemp : Finset.Ico cap cap = ∅ := by simp
    simp only [hemp, if_true]
    have hgrow : (∅ : Finset Nat) ∪ Finset.Ico cap (cap * 2) = Finset.Ico cap (cap * 2) :=
      Finset.empty_union _
    have hne : (Finset.Ico cap (cap * 2)).Nonempty := Finset.nonempty_Ico.mpr (by omega)
    simp only [hemp, hgrow, dif_pos hne, Ico_min'_eq cap (cap * 2) hne]
    have hmem : ¬ (cap ∈ Finset.range cap) := by simp
    simp only [hmem, if_false, Ico_erase_left_nat]
    rw [reserve_iter, Finset.range_succ]
  dsimp only
  rw [hmid]
  dsimp only
  have e2 : List.range' 0 cap ++ [cap] = List.range (cap + 1) := by
    rw [List.range_succ, ← List.range_eq_range']
  rw [e2]

/-- Claim C8, witness: the amended statement at `cap = 2`. -/
theorem c8_witness :
    0 < 2 ∧
    reserve_iter (ResourceTable.new 2) 3
      = .ok ([0, 1, 2], ⟨Finset.range 3, ∅, ⟨Finset.Ico 3 4, 4⟩⟩) := by
  constructor
  · decide
  · have h := c8_fresh_table_ids 2 (by decide)
    simpa using h

-- ---------------------------------------------------------------------------
-- IdentifierAllocator (allocator/identifier_allocator.rs) and PIDGuard
-- ---------------------------------------------------------------------------

/-- Source `IdentifierAllocator` from allocator/identifier_allocator.rs: a
`BTreeSet` of free ids. -/
structure IdentifierAllocator where
  tracker : Finset Nat
deriving DecidableEq

namespace IdentifierAllocator

/-- Source `IdentifierAllocator::new(capacity)`. -/
def new (capacity : Nat) : IdentifierAllocator := ⟨Finset.range capacity⟩

/-- Source `IdentifierAllocator::allocate`: `pop_first`, panicking when empty. -/
def allocate (a : IdentifierAllocator) : Except String (Nat × IdentifierAllocator) :=
  if h : a.tracker.Nonempty then
    .ok (a.tracker.min' h, ⟨a.tracker.erase (a.tracker.min' h)⟩)
  else
    .error "IdentifierAllocator::allocate: no more ids available"

/-- Source `IdentifierAllocator::deallocate(id)`: `insert` returns `false` when the
id is already present — already free — and then the code panics. -/
def deallocate (a : IdentifierAllocator) (id : Nat) : Except String IdentifierAllocator :=
  if id ∈ a.tracker then .error "IdentifierAllocator::deallocate: deallocate twice!"
  else .ok ⟨insert id a.tracker⟩

end IdentifierAllocator

/-- Source `PIDGuard` from process/process.rs: the PCB's pid slot.  The guard draws
from the global `PID_ALLOCATOR : Mutex<IdentifierAllocator>`, which the
embedding passes explicitly. -/
structure PIDGuard where
  id : Nat
deriving DecidableEq

namespace PIDGuard

/-- Source `PIDGuard::allocate`. -/
def allocate (st : IdentifierAllocator) : Except String (PIDGuard × IdentifierAllocator) :=
  match st.allocate with
  | .error e => .error e
  | .ok (id, st1) => .ok (⟨id⟩, st1)

/-- Source `impl Drop for PIDGuard`: dropping the guard deallocates its id. -/
def drop (g : PIDGuard) (st : IdentifierAllocator) : Except String IdentifierAllocator :=
  st.deallocate g.id

end PIDGuard

-- ---------------------------------------------------------------------------
-- Claim C10
-- ---------------------------------------------------------------------------

/-- Claim C10: the PID mechanism used by PCBs (`PIDGuard` over
`IdentifierAllocator`, not `ResourceTable`): `allocate` pops the smallest
free id; deallocating it inserts it back, so the free set is restored and
a later `allocate` hands the same id out again; deallocating an id that is
still free panics; and `PIDGuard`'s drop implementation is exactly this
deallocation. -/
theorem c10_pid_roundtrip (st : IdentifierAllocator) (m : Nat)
    (hm : m ∈ st.tracker) (hmin : ∀ x ∈ st.tracker, m ≤ x) :
    st.allocate = .ok (m, ⟨st.tracker.erase m⟩) ∧
    PIDGuard.drop ⟨m⟩ ⟨st.tracker.erase m⟩
      = IdentifierAllocator.deallocate ⟨st.tracker.erase m⟩ m ∧
    IdentifierAllocator.deallocate ⟨st.tracker.erase m⟩ m = .ok ⟨st.tracker⟩ ∧
    IdentifierAllocator.allocate ⟨st.tracker⟩ = .ok (m, ⟨st.tracker.erase m⟩) ∧
    st.deallocate m = .error "IdentifierAllocator::deallocate: deallocate twice!" := by
  have hne : st.tracker.Nonempty := ⟨m, hm⟩
  have hmin' : st.tracker.min' hne = m :=
    le_antisymm (Finset.min'_le _ _ hm) (hmin _ (Finset.min'_mem _ _))
  have halloc : st.allocate = .ok (m, ⟨st.tracker.erase m⟩) := by
    rw [IdentifierAllocator.allocate, dif_pos hne, hmin']
  refine ⟨halloc, rfl, ?_, halloc, ?_⟩
  · rw [IdentifierAllocator.deallocate]
    have hnm : ¬ (m ∈ st.tracker.erase m) := Finset.not_mem_erase m st.tracker
    rw [if_neg hnm, Finset.insert_erase hm]
  · rw [IdentifierAllocator.deallocate, if_pos hm]

/-- Claim C10, witness: the round trip on a fresh two-id allocator with its
least free id 0. -/
theorem c10_witness :
    0 ∈ (IdentifierAllocator.new 2).tracker ∧
    (∀ x ∈ (IdentifierAllocator.new 2).tracker, 0 ≤ x) ∧
    ((IdentifierAllocator.new 2).allocate
        = .ok (0, ⟨(IdentifierAllocator.new 2).tracker.erase 0⟩) ∧
      PIDGuard.drop ⟨0⟩ ⟨(IdentifierAllocator.new 2).tracker.erase 0⟩
        = IdentifierAllocator.deallocate ⟨(IdentifierAllocator.new 2).tracker.erase 0⟩ 0 ∧
      IdentifierAllocator.deallocate ⟨(IdentifierAllocator.new 2).tracker.erase 0⟩ 0
        = .ok ⟨(IdentifierAllocator.new 2).tracker⟩ ∧
      IdentifierAllocator.allocate ⟨(IdentifierAllocator.new 2).tracker⟩
        = .ok (0, ⟨(IdentifierAllocator.new 2).tracker.erase 0⟩) ∧
      (IdentifierAllocator.new 2).deallocate 0
        = .error "IdentifierAllocator::deallocate: deallocate twice!") :=
  ⟨by decide, by decide,
    c10_pid_roundtrip (IdentifierAllocator.new 2) 0 (by decide) (by decide)⟩

-- ---------------------------------------------------------------------------
-- FrameAllocator (allocator/frame_allocator.rs)
-- ---------------------------------------------------------------------------

/-- Source `FrameAllocator` from allocator/frame_allocator.rs: the dense slot
vector (`0` = free, `n > 0` = part of an `n`-page allocation) plus the
base physical address of the heap window. -/
structure FrameAllocator where
  page_allocated : List Nat
  base_addr : Nat
deriving DecidableEq

namespace FrameAllocator

/-- Source `FrameAllocator::new(base_addr, n_pages)`. -/
def new (base_addr n_pages : Nat) : FrameAllocator :=
  ⟨List.replicate n_pages 0, base_addr⟩

/-- The inner loop of `allocate`: from slot `pos`, examine `count` slots.
The source predicate is `if !self.page_allocated[i + j] == 0` — `!` is
bitwise NOT on `usize` — so a slot stops the run only when its value is
`2^64 - 1`; indexing past the end of the vector panics. -/
def scan_run (slots : List Nat) : Nat → Nat → Except String Bool
  | _, 0 => .ok true
  | pos, count + 1 =>
    match slots.get? pos with
    | none => .error "index out of bounds"
    | some v =>
      if USIZE - 1 - v = 0 then .ok false
      else scan_run slots (pos + 1) count

/-- Mark `count` slots from `pos` with the allocation size `npages`. -/
def mark_run : List Nat → Nat → Nat → Nat → List Nat
  | slots, _, 0, _ => slots
  | slots, pos, count + 1, npages => mark_run (slots.set pos npages) (pos + 1) count npages

/-- The outer first-fit loop of `allocate` (`for i in 0..len`), with the
remaining iteration count made explicit.  On success the source returns
`base_addr + i * size` — the slot index scaled by the *byte size*, not by
`PAGE_SIZE`. -/
def alloc_scan (slots : List Nat) (npages base size : Nat) :
    Nat → Nat → Except String (List Nat × Nat)
  | _, 0 => .error "FrameAllocator::allocate: no available page!"
  | i, fuel + 1 =>
    match slots.get? i with
    | none => .error "FrameAllocator::allocate: no available page!"
    | some v =>
      if v = 0 then
        match scan_run slots i npages with
        | .error e => .error e
        | .ok true => .ok (mark_run slots i npages npages, base + i * size)
        | .ok false => alloc_scan slots npages base size (i + 1) fuel
      else alloc_scan slots npages base size (i + 1) fuel

/-- Source `FrameAllocator::allocate(size)`: `npages = PG_ROUND_UP(size) / PAGE_SIZE`,
then the first-fit scan. -/
def allocate (fa : FrameAllocator) (size : Nat) : Except String (FrameAllocator × Nat) :=
  let npages := PG_ROUND_UP size / PAGE_SIZE
  match alloc_scan fa.page_allocated npages fa.base_addr size 0 fa.page_allocated.length with
  | .error e => .error e
  | .ok (slots, ptr) => .ok (⟨slots, fa.base_addr⟩, ptr)

/-- The loop of `deallocate`: each covered slot must hold the group size
`npages`, and is cleared. -/
def clear_run : List Nat → Nat → Nat → Nat → Except String (List Nat)
  | slots, _, 0, _ => .ok slots
  | slots, pos, count + 1, npages =>
    match slots.get? pos with
    | none => .error "index out of bounds"
    | some v =>
      if v = npages then clear_run (slots.set pos 0) (pos + 1) count npages
      else .error "assertion failed: page_allocated[id] == npages"

/-- Source `FrameAllocator::deallocate(addr)`. -/
def deallocate (fa : FrameAllocator) (addr : Nat) : Except String FrameAllocator :=
  let begin_idx := (addr - fa.base_addr) / PAGE_SIZE
  match fa.page_allocated.get? begin_idx with
  | none => .error "index out of bounds"
  | some npages =>
    match clear_run fa.page_allocated begin_idx npages npages with
    | .error e => .error e
    | .ok slots => .ok ⟨slots, fa.base_addr⟩

end FrameAllocator

-- ---------------------------------------------------------------------------
-- Claim C5
-- ---------------------------------------------------------------------------

/-- Claim C5 (code bug, spec Open Question 1): on the four-slot bitmap
`[0, 3, 3, 0]` with no run of two consecutive free slots, a two-page
allocation must fail per the claim; the code's inverted inner predicate
(`!slot == 0`) never rejects an occupied slot, so the scan "succeeds" at
index 0 and stamps the occupied slot 1.  On `[1, 1, 0, 0]`, where the
correct answer is the run at index 2 with address `base + 2 * PAGE_SIZE =
0x2000`, the code returns `base + i * size = 2 * 8192 = 0x4000`. -/
theorem c5_first_fit_scan_bugs :
    FrameAllocator.allocate ⟨[0, 3, 3, 0], 0⟩ (2 * PAGE_SIZE)
      = .ok (⟨[2, 2, 3, 0], 0⟩, 0) ∧
    (∀ i, i < 4 →
      ¬ (List.get? [0, 3, 3, 0] i = some 0 ∧ List.get? [0, 3, 3, 0] (i + 1) = some 0)) ∧
    FrameAllocator.allocate ⟨[1, 1, 0, 0], 0⟩ (2 * PAGE_SIZE)
      = .ok (⟨[1, 1, 2, 2], 0⟩, 16384) ∧
    16384 ≠ 2 * PAGE_SIZE := by
  decide

-- ---------------------------------------------------------------------------
-- ProcessManager (process/manager.rs)
-- ---------------------------------------------------------------------------

/-- Source `ProcessManager` from process/manager.rs: the `ResourceTable` of PCBs
plus the ready queue, kept front-first; the `Arc<PCB>` clones stored in
the `VecDeque` are identified by their pid. -/
structure ProcessManager where
  pcb_table : ResourceTable
  ready_queue : List Nat
deriving DecidableEq

namespace ProcessManager

/-- Source `ProcessManager::new()` with `INTIIAL_MAX_N_PROCS = 128`. -/
def new : ProcessManager := ⟨ResourceTable.new 128, []⟩

/-- Source `ProcessManager::create_process`: reserve a pid, allocate the PCB,
initialise the slot, then `ready_queue.push_front(pcb)`. -/
def create_process (pm : ProcessManager) : Except String (Nat × ProcessManager) :=
  match pm.pcb_table.reserve_entry with
  | .error e => .error e
  | .ok (pid, t1) =>
    match t1.initialise_entry pid with
    | .error e => .error e
    | .ok t2 => .ok (pid, ⟨t2, pid :: pm.ready_queue⟩)

/-- Source `ProcessManager::pop_one`: `ready_queue.pop_front()`. -/
def pop_one (pm : ProcessManager) : Option (Nat × ProcessManager) :=
  match pm.ready_queue with
  | [] => none
  | p :: rest => some (p, ⟨pm.pcb_table, rest⟩)

/-- Source `ProcessManager::push_one(pid)`: `get(pid)` (panicking on a missing or
uninitialised slot) then `ready_queue.push_back`. -/
def push_one (pm : ProcessManager) (pid : Nat) : Except String ProcessManager :=
  if pid ∈ pm.pcb_table.slot_keys then
    if pid ∈ pm.pcb_table.slot_inited then .ok ⟨pm.pcb_table, pm.ready_queue ++ [pid]⟩
    else .error "Manager::get_data: uninitialised resource"
  else .error "ResourceManager::get_data_ref_mut: internal error"

end ProcessManager

-- ---------------------------------------------------------------------------
-- Claim C7
-- ---------------------------------------------------------------------------

/-- Two `create_process` calls on a fresh manager with no intervening pops,
then one `pop_one`; returns (first pid, second pid, popped pid). -/
def c7_run : Except String (Nat × Nat × Option Nat) :=
  match ProcessManager.new.create_process with
  | .error e => .error e
  | .ok (pid1, pm1) =>
    match pm1.create_process with
    | .error e => .error e
    | .ok (pid2, pm2) =>
      match pm2.pop_one with
      | none => .error "empty queue"
      | some (p, _) => .ok (pid1, pid2, some p)

set_option maxRecDepth 8000 in
/-- Claim C7 (code bug): processes 0 and 1 are created in that order, yet
the first `pop_one` returns pid 1, the *latest* creation —
`create_process` enqueues with `push_front` while `pop_one` pops the
front, so the ready queue is LIFO for creations, not FIFO.  (The sibling
paths `create_initcode` and `push_one` use `push_back`.) -/
theorem c7_creation_order_is_lifo :
    c7_run = .ok (0, 1, some 1) ∧ c7_run ≠ .ok (0, 1, some 0) := by
  decide

-- ---------------------------------------------------------------------------
-- Machine state and page-table construction (mm/page_table.rs, mm/memory.rs)
-- ---------------------------------------------------------------------------

/-- Physical memory plus the frame allocator's supply of unused frames.
`fresh` is the next unused physical page number: `FrameGuard::allocate_zeroed`
hands out frames the allocator has never given away, which on a fresh
first-fit bitmap are consecutive pages. -/
structure Machine where
  mem : Mem
  fresh : Nat

/-- Store `v` into word `i` of physical page `p`. -/
def write_word (m : Mem) (p i v : Nat) : Mem :=
  fun q j => if q = p ∧ j = i then v else m q j

/-- Source `Frame::zero()`: clear a whole physical page. -/
def zero_page (m : Mem) (p : Nat) : Mem :=
  fun q j => if q = p then 0 else m q j

/-- Source `FrameGuard::allocate_zeroed()`: take the next unused frame and zero it;
returns the new machine and the frame's page number. -/
def alloc_zeroed (mch : Machine) : Machine × Nat :=
  (⟨zero_page mch.mem mch.fresh, mch.fresh + 1⟩, mch.fresh)

theorem write_word_at (m : Mem) (p i v : Nat) : write_word m p i v p i = v := by
  simp [write_word]

theorem write_word_ne_page (m : Mem) (p i v x y : Nat) (h : x ≠ p) :
    write_word m p i v x y = m x y := by
  simp [write_word, h]

theorem write_word_ne_idx (m : Mem) (p i v x y : Nat) (h : y ≠ i) :
    write_word m p i v x y = m x y := by
  simp [write_word, h]

theorem zero_page_at (m : Mem) (p y : Nat) : zero_page m p p y = 0 := by
  simp [zero_page]

theorem zero_page_ne (m : Mem) (p x y : Nat) (h : x ≠ p) : zero_page m p x y = m x y := by
  simp [zero_page, h]

/-- Level-1 and level-0 stage of `PageTableGuard::find_allocate` (the source's
`for level in (0..=2).rev()` loop, unrolled): `n1` is the page number of
the level-1 node reached from the root.  When the level-1 entry is invalid
a zeroed node is allocated, tracked in `node_frames`, and the entry is set
to `PPN(new node) | VALID`.  (The source re-asserts that the written entry
decomposes back to `(node_pa, VALID)`; that holds unconditionally — see
`PageTableEntry.new_referencing_ppn` and `PageTableEntry.new_flags`.)
Returns the page number and entry index of the level-0 slot. -/
def find_allocate_level1 (mch : Machine) (pt : PageTableGuard) (va n1 : Nat) :
    Except String (Machine × PageTableGuard × Nat × Nat) :=
  match (PageTableEntry.mk (mch.mem n1 (pte_index va 1))).is_valid with
  | none => .error "PTEFlags::from_bits: unknown bit set"
  | some v1 =>
    if v1 then
      .ok (mch, pt,
        (PageTableEntry.mk (mch.mem n1 (pte_index va 1))).referencing_ppn,
        pte_index va 0)
    else
      .ok (⟨write_word (zero_page mch.mem mch.fresh) n1 (pte_index va 1)
              (PageTableEntry.new (mch.fresh * PAGE_SIZE) 1).bits,
            mch.fresh + 1⟩,
        ⟨pt.root, pt.node_frames ++ [mch.fresh]⟩,
        mch.fresh,
        pte_index va 0)

/-- Source `PageTableGuard::find_allocate(va)`: the level-2 stage, then
`find_allocate_level1`. -/
def find_allocate (mch : Machine) (pt : PageTableGuard) (va : Nat) :
    Except String (Machine × PageTableGuard × Nat × Nat) :=
  match (PageTableEntry.mk (mch.mem pt.root (pte_index va 2))).is_valid with
  | none => .error "PTEFlags::from_bits: unknown bit set"
  | some v2 =>
    if v2 then
      find_allocate_level1 mch pt va
        (PageTableEntry.mk (mch.mem pt.root (pte_index va 2))).referencing_ppn
    else
      find_allocate_level1
        ⟨write_word (zero_page mch.mem mch.fresh) pt.root (pte_index va 2)
            (PageTableEntry.new (mch.fresh * PAGE_SIZE) 1).bits,
          mch.fresh + 1⟩
        ⟨pt.root, pt.node_frames ++ [mch.fresh]⟩
        va mch.fresh

/-- Source `PageTableGuard::map_one_allocate(va, pa, flags)`: walk with allocation,
assert the leaf is currently invalid, write `PTE = PPN(pa) | (flags|VALID)`,
then re-assert the written entry decomposes to `(pa, flags|VALID)` (this
fails when `pa` is not page-aligned or the flag bits collide). -/
def map_one_allocate (mch : Machine) (pt : PageTableGuard) (va pa fl : Nat) :
    Except String (Machine × PageTableGuard) :=
  match find_allocate mch pt va with
  | .error e => .error e
  | .ok (mch1, pt1, p, i) =>
    match (PageTableEntry.mk (mch1.mem p i)).is_valid with
    | none => .error "PTEFlags::from_bits: unknown bit set"
    | some v =>
      if v then .error "PageTable::map: overwritting original mapping!"
      else
        if (PageTableEntry.new pa (fl ||| 1)).referencing_address = pa ∧
            (PageTableEntry.new pa (fl ||| 1)).flags = some (fl ||| 1) then
          .ok (⟨write_word mch1.mem p i (PageTableEntry.new pa (fl ||| 1)).bits,
                mch1.fresh⟩, pt1)
        else .error "assertion failed: written entry decomposition"

/-- The backing branch of `PageTableGuard::map_virt_area_allocate`:
map each tracked frame (asserting page alignment); `CowShared` panics. -/
def map_frames_loop (fl : Nat) :
    Machine → PageTableGuard → List (Nat × VirtFrameGuard) →
      Except String (Machine × PageTableGuard)
  | mch, pt, [] => .ok (mch, pt)
  | mch, pt, (va, g) :: rest =>
    match g with
    | .cowShared _ => .error "kernel does not support copy-on-write at the moment..."
    | .exclusivelyAllocated ppn =>
      if va % PAGE_SIZE = 0 then
        match map_one_allocate mch pt va (ppn * PAGE_SIZE) fl with
        | .error e => .error e
        | .ok (mch1, pt1) => map_frames_loop fl mch1 pt1 rest
      else .error "assertion failed: va.is_page_aligned()"
    | .physBorrowed ppn =>
      if va % PAGE_SIZE = 0 then
        match map_one_allocate mch pt va (ppn * PAGE_SIZE) fl with
        | .error e => .error e
        | .ok (mch1, pt1) => map_frames_loop fl mch1 pt1 rest
      else .error "assertion failed: va.is_page_aligned()"

/-- The identity branch of `map_virt_area_allocate`: map each virtual frame
of the range to the equal physical frame. -/
def map_ident_loop (fl : Nat) :
    Machine → PageTableGuard → List Nat → Except String (Machine × PageTableGuard)
  | mch, pt, [] => .ok (mch, pt)
  | mch, pt, vfn :: rest =>
    match map_one_allocate mch pt (vfn * PAGE_SIZE) (vfn * PAGE_SIZE) fl with
    | .error e => .error e
    | .ok (mch1, pt1) => map_ident_loop fl mch1 pt1 rest

/-- Source `PageTableGuard::map_virt_area_allocate(virt_area)`. -/
def map_virt_area_allocate (mch : Machine) (pt : PageTableGuard) (a : VirtArea) :
    Except String (Machine × PageTableGuard) :=
  if a.is_identically_mapped then map_ident_loop a.permissions mch pt a.identity_vfns
  else map_frames_loop a.permissions mch pt a.virt_frames

-- ---------------------------------------------------------------------------
-- Walk pages and invariance under irrelevant writes
-- ---------------------------------------------------------------------------

/-- The page number of the level-1 node visited by the walk for `va`. -/
def walk1 (mem : Mem) (root va : Nat) : Nat :=
  (PageTableEntry.mk (mem root (pte_index va 2))).referencing_ppn

/-- The page number of the level-0 node visited by the walk for `va`. -/
def walk2 (mem : Mem) (root va : Nat) : Nat :=
  (PageTableEntry.mk (mem (walk1 mem root va) (pte_index va 1))).referencing_ppn

/-- A single word update on a page the walk never visits changes neither the
walk nor the result of `find`. -/
theorem find_write_irrelevant (mem : Mem) (root va q j v : Nat)
    (h0 : root ≠ q) (h1 : walk1 mem root va ≠ q) (h2 : walk2 mem root va ≠ q) :
    find (write_word mem q j v) root va = find mem root va ∧
    walk1 (write_word mem q j v) root va = walk1 mem root va ∧
    walk2 (write_word mem q j v) root va = walk2 mem root va := by
  have e2 : write_word mem q j v root (pte_index va 2) = mem root (pte_index va 2) :=
    write_word_ne_page _ _ _ _ _ _ h0
  have ew1 : walk1 (write_word mem q j v) root va = walk1 mem root va := by
    rw [walk1, walk1, e2]
  rw [walk1] at h1
  have e1 : write_word mem q j v
        (PageTableEntry.mk (mem root (pte_index va 2))).referencing_ppn (pte_index va 1)
      = mem (PageTableEntry.mk (mem root (pte_index va 2))).referencing_ppn
          (pte_index va 1) :=
    write_word_ne_page _ _ _ _ _ _ h1
  have ew2 : walk2 (write_word mem q j v) root va = walk2 mem root va := by
    rw [walk2, walk2, ew1, walk1, e1]
  rw [walk2, walk1] at h2
  have e0 : write_word mem q j v
        (PageTableEntry.mk
          (mem (PageTableEntry.mk (mem root (pte_index va 2))).referencing_ppn
            (pte_index va 1))).referencing_ppn (pte_index va 0)
      = mem (PageTableEntry.mk
          (mem (PageTableEntry.mk (mem root (pte_index va 2))).referencing_ppn
            (pte_index va 1))).referencing_ppn (pte_index va 0) :=
    write_word_ne_page _ _ _ _ _ _ h2
  refine ⟨?_, ew1, ew2⟩
  rw [find, find]
  dsimp only
  rw [e2, e1, e0]

/-- Source `translate` is likewise unchanged. -/
theorem translate_write_irrelevant (mem : Mem) (root va q j v : Nat)
    (h0 : root ≠ q) (h1 : walk1 mem root va ≠ q) (h2 : walk2 mem root va ≠ q) :
    translate (write_word mem q j v) root va = translate mem root va := by
  rw [translate, translate, (find_write_irrelevant mem root va q j v h0 h1 h2).1]

theorem is_valid_zero : (PageTableEntry.mk 0).is_valid = some false := by decide

/-- The interior entry written for a freshly allocated node references that
node. -/
theorem new_node_refppn (F : Nat) :
    (PageTableEntry.mk (PageTableEntry.new (F * PAGE_SIZE) 1).bits).referencing_ppn = F := by
  show (PageTableEntry.new (F * PAGE_SIZE) 1).referencing_ppn = F
  rw [PageTableEntry.new_referencing_ppn (F * PAGE_SIZE) 1 (by omega)]
  show F * 4096 / 4096 = F
  omega

/-- After a successful `map_one_allocate` on a well-formed table whose pages
all live below `B < fresh`, the root is preserved and the walk for `va`
never visits page `B`: pre-existing nodes are below `B`, and nodes the map
allocates are at `fresh` and above. -/
theorem map_walk_avoids (mch : Machine) (pt : PageTableGuard) (va pa fl B : Nat)
    (hB : B < mch.fresh)
    (hroot : pt.root < B)
    (hWF : ∀ p i, p < B → mch.mem p i % 2 = 1 →
        (PageTableEntry.mk (mch.mem p i)).referencing_ppn < B)
    (h01 : pte_index va 0 ≠ pte_index va 1)
    (h02 : pte_index va 0 ≠ pte_index va 2)
    (h12 : pte_index va 1 ≠ pte_index va 2)
    {mch1 : Machine} {pt1 : PageTableGuard}
    (h : map_one_allocate mch pt va pa fl = .ok (mch1, pt1)) :
    pt1.root = pt.root ∧
    walk1 mch1.mem pt.root va ≠ B ∧
    walk2 mch1.mem pt.root va ≠ B := by
  rw [map_one_allocate] at h
  rcases hfa : find_allocate mch pt va with e | ⟨mchf, ptf, p0, i0⟩
  · rw [hfa] at h
    simp at h
  rw [hfa] at h
  dsimp only at h
  rcases hv : (PageTableEntry.mk (mchf.mem p0 i0)).is_valid with _ | v
  · rw [hv] at h
    simp at h
  rw [hv] at h
  dsimp only at h
  rcases v with _ | _
  case true =>
    rw [if_pos rfl] at h
    simp at h
  rw [if_neg (by simp)] at h
  split at h
  case isFalse => simp at h
  case isTrue hdec =>
  simp only [Except.ok.injEq, Prod.mk.injEq] at h
  obtain ⟨hm1, hp1⟩ := h
  subst hm1
  subst hp1
  -- Analyse the allocation walk.
  rw [find_allocate] at hfa
  rcases hv2 : (PageTableEntry.mk (mch.mem pt.root (pte_index va 2))).is_valid with _ | v2
  · rw [hv2] at hfa
    simp at hfa
  rw [hv2] at hfa
  dsimp only at hfa
  rcases v2 with _ | _
  case true =>
    -- level-2 entry valid: descend into an existing node below B
    rw [if_pos rfl, find_allocate_level1] at hfa
    have hn1B : (PageTableEntry.mk (mch.mem pt.root (pte_index va 2))).referencing_ppn < B :=
      hWF pt.root (pte_index va 2) hroot (PageTableEntry.is_valid_true_mod_two hv2)
    rcases hv1 : (PageTableEntry.mk
        (mch.mem (PageTableEntry.mk (mch.mem pt.root (pte_index va 2))).referencing_ppn
          (pte_index va 1))).is_valid with _ | v1
    · rw [hv1] at hfa
      simp at hfa
    rw [hv1] at hfa
    dsimp only at hfa
    rcases v1 with _ | _
    case true =>
      -- level-1 entry valid as well: the leaf node also lies below B
      rw [if_pos rfl] at hfa
      simp only [Except.ok.injEq, Prod.mk.injEq] at hfa
      obtain ⟨hmf, hpf, hP0, hI0⟩ := hfa
      subst hmf
      subst hpf
      subst hP0
      subst hI0
      have hp0B : (PageTableEntry.mk
          (mch.mem (PageTableEntry.mk (mch.mem pt.root (pte_index va 2))).referencing_ppn
            (pte_index va 1))).referencing_ppn < B :=
        hWF _ (pte_index va 1) hn1B (PageTableEntry.is_valid_true_mod_two hv1)
      have hw1 : walk1 (write_word mch.mem
            (PageTableEntry.mk
              (mch.mem (PageTableEntry.mk (mch.mem pt.root (pte_index va 2))).referencing_ppn
                (pte_index va 1))).referencing_ppn
            (pte_index va 0) (PageTableEntry.new pa (fl ||| 1)).bits) pt.root va
          = (PageTableEntry.mk (mch.mem pt.root (pte_index va 2))).referencing_ppn := by
        rw [walk1, write_word_ne_idx _ _ _ _ _ _ (Ne.symm h02)]
      refine ⟨rfl, ?_, ?_⟩
      · dsimp only
        rw [hw1]
        omega
      · dsimp only
        rw [walk2, hw1, write_word_ne_idx _ _ _ _ _ _ (Ne.symm h01)]
        omega
    case false =>
      -- level-1 entry invalid: a node is allocated at page `fresh`
      rw [if_neg (by simp)] at hfa
      simp only [Except.ok.injEq, Prod.mk.injEq] at hfa
      obtain ⟨hmf, hpf, hP0, hI0⟩ := hfa
      subst hmf
      subst hpf
      subst hP0
      subst hI0
      have hw1 : walk1 (write_word (write_word (zero_page mch.mem mch.fresh)
              (PageTableEntry.mk (mch.mem pt.root (pte_index va 2))).referencing_ppn
              (pte_index va 1) (PageTableEntry.new (mch.fresh * PAGE_SIZE) 1).bits)
            mch.fresh (pte_index va 0) (PageTableEntry.new pa (fl ||| 1)).bits) pt.root va
          = (PageTableEntry.mk (mch.mem pt.root (pte_index va 2))).referencing_ppn := by
        rw [walk1, write_word_ne_idx _ _ _ _ _ _ (Ne.symm h02),
          write_word_ne_idx _ _ _ _ _ _ (Ne.symm h12),
          zero_page_ne _ _ _ _ (by omega : pt.root ≠ mch.fresh)]
      refine ⟨rfl, ?_, ?_⟩
      · dsimp only
        rw [hw1]
        omega
      · dsimp only
        rw [walk2, hw1, write_word_ne_idx _ _ _ _ _ _ (Ne.symm h01), write_word_at,
          new_node_refppn]
        omega
  case false =>
    -- level-2 entry invalid: the level-1 node is allocated at page `fresh`;
    -- its entries are zero, so the level-1 stage must also allocate.
    rw [if_neg (by simp), find_allocate_level1] at hfa
    dsimp only at hfa
    have hlook : write_word (zero_page mch.mem mch.fresh) pt.root (pte_index va 2)
        (PageTableEntry.new (mch.fresh * PAGE_SIZE) 1).bits mch.fresh (pte_index va 1) = 0 := by
      rw [write_word_ne_page _ _ _ _ _ _ (by omega : mch.fresh ≠ pt.root), zero_page_at]
    rw [hlook, is_valid_zero] at hfa
    simp only [Except.ok.injEq, Prod.mk.injEq] at hfa
    rw [if_neg (by simp)] at hfa
    simp only [Except.ok.injEq, Prod.mk.injEq] at hfa
    obtain ⟨hmf, hpf, hP0, hI0⟩ := hfa
    subst hmf
    subst hpf
    subst hP0
    subst hI0
    have hw1 : walk1 (write_word (write_word (zero_page (write_word (zero_page mch.mem mch.fresh)
            pt.root (pte_index va 2) (PageTableEntry.new (mch.fresh * PAGE_SIZE) 1).bits)
            (mch.fresh + 1)) mch.fresh (pte_index va 1)
            (PageTableEntry.new ((mch.fresh + 1) * PAGE_SIZE) 1).bits)
          (mch.fresh + 1) (pte_index va 0) (PageTableEntry.new pa (fl ||| 1)).bits) pt.root va
        = mch.fresh := by
      rw [walk1,
        write_word_ne_page _ _ _ _ _ _ (by omega : pt.root ≠ mch.fresh + 1),
        write_word_ne_page _ _ _ _ _ _ (by omega : pt.root ≠ mch.fresh),
        zero_page_ne _ _ _ _ (by omega : pt.root ≠ mch.fresh + 1),
        write_word_at, new_node_refppn]
    refine ⟨rfl, ?_, ?_⟩
    · dsimp only
      rw [hw1]
      omega
    · dsimp only
      rw [walk2, hw1,
        write_word_ne_page _ _ _ _ _ _ (by omega : mch.fresh ≠ mch.fresh + 1),
        write_word_at, new_node_refppn]
      omega

-- ---------------------------------------------------------------------------
-- Trapframe installation and PCB first-execution init
-- (mm/address_space.rs, process/process.rs, process/context.rs)
-- ---------------------------------------------------------------------------

/-- Source `VirtArea::make_trapframe()`: one freshly allocated zeroed frame at
`TRAPFRAME_BASE_USER_VA`, permissions `R|W`, exclusively owned; returns
the area and the backing physical address. -/
def make_trapframe (mch : Machine) : Machine × VirtArea × Nat :=
  ((alloc_zeroed mch).1,
    { range_begin := TRAPFRAME_BASE_USER_VA / PAGE_SIZE
      range_end := (TRAPFRAME_BASE_USER_VA + PAGE_SIZE) / PAGE_SIZE
      virt_frames := [(TRAPFRAME_BASE_USER_VA, .exclusivelyAllocated (alloc_zeroed mch).2)]
      permissions := 6
      is_identically_mapped := false },
    (alloc_zeroed mch).2 * PAGE_SIZE)

/-- Source `AddrSpace::init_trapframe()`: build the trapframe area, map it, push it
onto the area list, and hand the backing physical address back. -/
def init_trapframe (mch : Machine) (sp : AddrSpace) :
    Except String (Machine × AddrSpace × Nat) :=
  match map_virt_area_allocate (make_trapframe mch).1 sp.page_table
      (make_trapframe mch).2.1 with
  | .error e => .error e
  | .ok (mch2, pt2) =>
    .ok (mch2, ⟨pt2, sp.virt_areas ++ [(make_trapframe mch).2.1]⟩,
      (make_trapframe mch).2.2)

/-- Source `ProcStatus` from process/process.rs. -/
inductive ProcStatus where
  | RUNNING
  | RUNNABLE
  | ZOMBIE
deriving DecidableEq

/-- Source `PCBInner` from process/process.rs: the trap-context physical address,
the user address space, and the status. -/
structure PCBInner where
  trap_context : Option Nat
  user_addr_space : Option AddrSpace
  status : ProcStatus

/-- Source `PCBInner::first_execution_init(kernel_stack_pa)` from
process/process.rs:
1. `init_trapframe()` on the user address space (panicking when absent);
2. record the trapframe physical address in `trap_context`;
3. `verify()` the user address space;
4. translate `TRAPFRAME_BASE_USER_VA` and assert it equals the recorded pa;
5. write the trap-context fields through the kernel identity mapping of the
   trapframe page (word offsets from `TrapContext`): kernel stack top
   `kernel_stack_pa + PAGE_SIZE` at word 33 (asserting the stack base is
   page-aligned), the `usertrap` handler address at word 36, the user PC
   `TEXT_BASE_USER_VA` at word 35, and the kernel SATP at word 32.  The
   handler address and the kernel SATP are read from globals
   (`usertrap as usize`, `KERNEL_ADDRESS_SPACE`), passed here as
   parameters. -/
def first_execution_init (mch : Machine) (s : PCBInner)
    (kernel_stack_pa usertrap_va kernel_satp : Nat) :
    Except String (Machine × PCBInner) :=
  match s.user_addr_space with
  | none => .error "PCBInner::modify_user_space: unitialised user address space"
  | some space =>
    match init_trapframe mch space with
    | .error e => .error e
    | .ok (mch1, space1, trapframe_pa) =>
      match AddrSpace.verify mch1.mem space1 with
      | .error e => .error e
      | .ok () =>
        match translate mch1.mem space1.page_table.root TRAPFRAME_BASE_USER_VA with
        | .error e => .error e
        | .ok none => .error "Option::unwrap on None"
        | .ok (some (tpa, _f)) =>
          if tpa = trapframe_pa then
            if kernel_stack_pa % PAGE_SIZE = 0 then
              .ok (⟨write_word
                      (write_word
                        (write_word
                          (write_word mch1.mem (trapframe_pa / PAGE_SIZE) 33
                            ((kernel_stack_pa + PAGE_SIZE) % USIZE))
                          (trapframe_pa / PAGE_SIZE) 36 usertrap_va)
                        (trapframe_pa / PAGE_SIZE) 35 TEXT_BASE_USER_VA)
                      (trapframe_pa / PAGE_SIZE) 32 kernel_satp,
                    mch1.fresh⟩,
                ⟨some trapframe_pa, some space1, s.status⟩)
            else .error "assertion failed: base_addr.is_page_aligned()"
          else .error "assertion failed: trapframe pa mismatch"

theorem trapframe_va_aligned : TRAPFRAME_BASE_USER_VA % PAGE_SIZE = 0 := by decide

theorem trapframe_idx01 :
    pte_index TRAPFRAME_BASE_USER_VA 0 ≠ pte_index TRAPFRAME_BASE_USER_VA 1 := by decide

theorem trapframe_idx02 :
    pte_index TRAPFRAME_BASE_USER_VA 0 ≠ pte_index TRAPFRAME_BASE_USER_VA 2 := by decide

theorem trapframe_idx12 :
    pte_index TRAPFRAME_BASE_USER_VA 1 ≠ pte_index TRAPFRAME_BASE_USER_VA 2 := by decide

-- ---------------------------------------------------------------------------
-- Claim C6
-- ---------------------------------------------------------------------------

/-- Claim C6: after `PCBInner::first_execution_init` returns, the
trap-context physical address recorded in the PCB is `Some pa` where
translating `TRAPFRAME_BASE_USER_VA` in that process's user address space
yields exactly `pa`, and `pa` is page-aligned.  The hypothesis is the
allocator well-formedness the kernel maintains: the root and every node
referenced from a valid PTE lie below the allocator's unused-frame
frontier, so freshly allocated frames never alias existing table pages. -/
theorem c6_first_execution_records_trapframe
    (mch : Machine) (s : PCBInner) (kstack utv satp : Nat)
    {mch' : Machine} {s' : PCBInner}
    (hwf : ∀ sp, s.user_addr_space = some sp →
        sp.page_table.root < mch.fresh ∧
        ∀ p i, p < mch.fresh → mch.mem p i % 2 = 1 →
          (PageTableEntry.mk (mch.mem p i)).referencing_ppn < mch.fresh)
    (h : first_execution_init mch s kstack utv satp = .ok (mch', s')) :
    ∃ pa sp' f,
      s'.trap_context = some pa ∧
      pa % PAGE_SIZE = 0 ∧
      s'.user_addr_space = some sp' ∧
      translate mch'.mem sp'.page_table.root TRAPFRAME_BASE_USER_VA
        = .ok (some (pa, f)) := by
  rw [first_execution_init] at h
  rcases hsp : s.user_addr_space with _ | sp
  · rw [hsp] at h
    simp at h
  rw [hsp] at h
  dsimp only at h
  obtain ⟨hroot, hWFm⟩ := hwf sp hsp
  rcases hit : init_trapframe mch sp with e | ⟨mch2, space1, tfpa⟩
  · rw [hit] at h
    simp at h
  rw [hit] at h
  dsimp only at h
  -- Unfold the trapframe installation.
  rw [init_trapframe, make_trapframe] at hit
  dsimp only [alloc_zeroed] at hit
  rw [map_virt_area_allocate] at hit
  dsimp only at hit
  rw [map_frames_loop] at hit
  rw [if_pos trapframe_va_aligned] at hit
  rcases hmap : map_one_allocate ⟨zero_page mch.mem mch.fresh, mch.fresh + 1⟩ sp.page_table
      TRAPFRAME_BASE_USER_VA (mch.fresh * PAGE_SIZE) 6 with e | ⟨m2, pt2⟩
  · rw [hmap] at hit
    simp at hit
  rw [hmap] at hit
  dsimp only at hit
  rw [map_frames_loop] at hit
  rw [if_neg (by simp)] at hit
  simp only [Except.ok.injEq, Prod.mk.injEq] at hit
  obtain ⟨hc2, hcs, hcp⟩ := hit
  subst hc2
  subst hcp
  -- The walk for the trapframe never visits the trapframe's own page.
  have hWF2 : ∀ p i, p < mch.fresh → zero_page mch.mem mch.fresh p i % 2 = 1 →
      (PageTableEntry.mk (zero_page mch.mem mch.fresh p i)).referencing_ppn < mch.fresh := by
    intro p i hp hv
    rw [zero_page_ne _ _ _ _ (by omega : p ≠ mch.fresh)] at hv ⊢
    exact hWFm p i hp hv
  obtain ⟨hrooteq, hw1ne, hw2ne⟩ :=
    map_walk_avoids ⟨zero_page mch.mem mch.fresh, mch.fresh + 1⟩ sp.page_table
      TRAPFRAME_BASE_USER_VA (mch.fresh * PAGE_SIZE) 6 mch.fresh
      (by show mch.fresh < mch.fresh + 1; omega)
      (by show sp.page_table.root < mch.fresh; exact hroot)
      (by
        show ∀ p i, p < mch.fresh → zero_page mch.mem mch.fresh p i % 2 = 1 →
          (PageTableEntry.mk (zero_page mch.mem mch.fresh p i)).referencing_ppn < mch.fresh
        exact hWF2)
      trapframe_idx01 trapframe_idx02 trapframe_idx12 hmap
  have hsp1 : space1.page_table = pt2 := by rw [← hcs]
  -- The in-function verification and translation check.
  rcases hver : AddrSpace.verify m2.mem space1 with e | u
  · rw [hver] at h
    simp at h
  cases u
  rw [hver] at h
  dsimp only at h
  rcases htr : translate m2.mem space1.page_table.root TRAPFRAME_BASE_USER_VA with e | o
  · rw [htr] at h
    simp at h
  rcases o with _ | ⟨tpa, f⟩
  · rw [htr] at h
    simp at h
  rw [htr] at h
  dsimp only at h
  split at h
  case isFalse => simp at h
  case isTrue htpa =>
  split at h
  case isFalse => simp at h
  case isTrue halign =>
  simp only [Except.ok.injEq, Prod.mk.injEq] at h
  obtain ⟨hm, hs⟩ := h
  subst hm
  subst hs
  -- Assemble the conclusion: the four trap-context writes land on the
  -- trapframe page, which the walk never visits.
  have htf : mch.fresh * PAGE_SIZE / PAGE_SIZE = mch.fresh := by
    show mch.fresh * 4096 / 4096 = mch.fresh
    omega
  have hr : sp.page_table.root ≠ mch.fresh := by omega
  have htr2 : translate m2.mem sp.page_table.root TRAPFRAME_BASE_USER_VA
      = .ok (some (tpa, f)) := by
    rw [← hrooteq, ← hsp1]
    exact htr
  refine ⟨mch.fresh * PAGE_SIZE, space1, f, rfl, Nat.mul_mod_left _ _, rfl, ?_⟩
  dsimp only
  rw [hsp1, hrooteq, htf]
  have A1 := find_write_irrelevant m2.mem sp.page_table.root TRAPFRAME_BASE_USER_VA
    mch.fresh 33 ((kstack + PAGE_SIZE) % USIZE) hr hw1ne hw2ne
  have T1 := translate_write_irrelevant m2.mem sp.page_table.root TRAPFRAME_BASE_USER_VA
    mch.fresh 33 ((kstack + PAGE_SIZE) % USIZE) hr hw1ne hw2ne
  have hw1b : walk1 (write_word m2.mem mch.fresh 33 ((kstack + PAGE_SIZE) % USIZE))
      sp.page_table.root TRAPFRAME_BASE_USER_VA ≠ mch.fresh := by
    rw [A1.2.1]
    exact hw1ne
  have hw2b : walk2 (write_word m2.mem mch.fresh 33 ((kstack + PAGE_SIZE) % USIZE))
      sp.page_table.root TRAPFRAME_BASE_USER_VA ≠ mch.fresh := by
    rw [A1.2.2]
    exact hw2ne
  have A2 := find_write_irrelevant (write_word m2.mem mch.fresh 33 ((kstack + PAGE_SIZE) % USIZE))
    sp.page_table.root TRAPFRAME_BASE_USER_VA mch.fresh 36 utv hr hw1b hw2b
  have T2 := translate_write_irrelevant
    (write_word m2.mem mch.fresh 33 ((kstack + PAGE_SIZE) % USIZE))
    sp.page_table.root TRAPFRAME_BASE_USER_VA mch.fresh 36 utv hr hw1b hw2b
  have hw1c : walk1 (write_word (write_word m2.mem mch.fresh 33 ((kstack + PAGE_SIZE) % USIZE))
      mch.fresh 36 utv) sp.page_table.root TRAPFRAME_BASE_USER_VA ≠ mch.fresh := by
    rw [A2.2.1]
    exact hw1b
  have hw2c : walk2 (write_word (write_word m2.mem mch.fresh 33 ((kstack + PAGE_SIZE) % USIZE))
      mch.fresh 36 utv) sp.page_table.root TRAPFRAME_BASE_USER_VA ≠ mch.fresh := by
    rw [A2.2.2]
    exact hw2b
  have A3 := find_write_irrelevant
    (write_word (write_word m2.mem mch.fresh 33 ((kstack + PAGE_SIZE) % USIZE)) mch.fresh 36 utv)
    sp.page_table.root TRAPFRAME_BASE_USER_VA mch.fresh 35 TEXT_BASE_USER_VA hr hw1c hw2c
  have T3 := translate_write_irrelevant
    (write_word (write_word m2.mem mch.fresh 33 ((kstack + PAGE_SIZE) % USIZE)) mch.fresh 36 utv)
    sp.page_table.root TRAPFRAME_BASE_USER_VA mch.fresh 35 TEXT_BASE_USER_VA hr hw1c hw2c
  have hw1d : walk1 (write_word (write_word (write_word m2.mem mch.fresh 33
        ((kstack + PAGE_SIZE) % USIZE)) mch.fresh 36 utv) mch.fresh 35 TEXT_BASE_USER_VA)
      sp.page_table.root TRAPFRAME_BASE_USER_VA ≠ mch.fresh := by
    rw [A3.2.1]
    exact hw1c
  have hw2d : walk2 (write_word (write_word (write_word m2.mem mch.fresh 33
        ((kstack + PAGE_SIZE) % USIZE)) mch.fresh 36 utv) mch.fresh 35 TEXT_BASE_USER_VA)
      sp.page_table.root TRAPFRAME_BASE_USER_VA ≠ mch.fresh := by
    rw [A3.2.2]
    exact hw2c
  have T4 := translate_write_irrelevant
    (write_word (write_word (write_word m2.mem mch.fresh 33 ((kstack + PAGE_SIZE) % USIZE))
      mch.fresh 36 utv) mch.fresh 35 TEXT_BASE_USER_VA)
    sp.page_table.root TRAPFRAME_BASE_USER_VA mch.fresh 32 satp hr hw1d hw2d
  rw [T4, T3, T2, T1, htr2, htpa]

/-- Claim C6, witness: a PCB whose user address space is a fresh empty
table (root page 0, frames from page 1 up) runs `first_execution_init`
successfully, and the conclusion holds for the resulting state. -/
theorem c6_witness :
    ∃ (mch' : Machine) (s' : PCBInner),
      first_execution_init ⟨fun _ _ => 0, 1⟩
          ⟨none, some ⟨⟨0, [0]⟩, []⟩, ProcStatus.RUNNABLE⟩ 0 123 456
        = .ok (mch', s') ∧
      ∃ pa sp' f,
        s'.trap_context = some pa ∧
        pa % PAGE_SIZE = 0 ∧
        s'.user_addr_space = some sp' ∧
        translate mch'.mem sp'.page_table.root TRAPFRAME_BASE_USER_VA
          = .ok (some (pa, f)) := by
  obtain ⟨mch', s', hrun⟩ :
      ∃ mch' s', first_execution_init ⟨fun _ _ => 0, 1⟩
          ⟨none, some ⟨⟨0, [0]⟩, []⟩, ProcStatus.RUNNABLE⟩ 0 123 456
        = .ok (mch', s') := ⟨_, _, rfl⟩
  refine ⟨mch', s', hrun, ?_⟩
  apply c6_first_execution_records_trapframe _ _ 0 123 456 _ hrun
  intro sp hsp
  have hsp' : sp = ⟨⟨0, [0]⟩, []⟩ := by
    injection hsp with h1
    exact h1.symm
  subst hsp'
  refine ⟨by show 0 < 1; omega, ?_⟩
  intro p i hp hv
  exact absurd hv (by simp)

end Derek
